import Mathlib

/-
  Shallow embedding of the OAuth2 device-flow authentication package of
  devops-tui (file `auth.go` style source, package `auth`).

  Modelling conventions:
  * Wall-clock time is an `Int` counting seconds; `time.Duration` values
    derived from server-provided second counts are `Int` seconds.
  * The token cache file is `CacheFS := Option FileContent`: `none` means the
    file is absent (`os.ReadFile` fails), `some .corrupt` means the file holds
    bytes that `json.Unmarshal` rejects, `some (.valid c)` holds a
    deserializable `TokenCache` record.
  * Each HTTP exchange is modelled by the response the server hands back
    (`PollResponse`, `RefreshResponse`); the poll server is a function from
    the index of the request to its response.  A request itself takes no model
    time; the only time progress is `time.Sleep(interval)` at the top of each
    poll iteration.
  * The poll loop is written as fuel-indexed iteration of the per-iteration
    step function `pollStep`; `none` means the fuel ran out (a model artifact,
    never the program's behaviour once the fuel exceeds the deadline).
-/

namespace DevOpsTui

/-- Response of the device-code endpoint (`DeviceCodeResponse` in the source).
`expiresIn` and `interval` are second counts sent by the server. -/
structure DeviceCodeResponse where
  deviceCode : String
  userCode : String
  verificationURI : String
  expiresIn : Int
  interval : Int
  message : String
deriving DecidableEq

/-- Response of the token endpoint on success (`TokenResponse` in the source). -/
structure TokenResponse where
  accessToken : String
  tokenType : String
  expiresIn : Int
  refreshToken : String
  scope : String
deriving DecidableEq

/-- The persisted credential record (`TokenCache` in the source);
`expiresAt` is an absolute timestamp in seconds. -/
structure TokenCache where
  accessToken : String
  refreshToken : String
  expiresAt : Int
deriving DecidableEq

/-- An OAuth error body (`TokenError` in the source). -/
structure TokenError where
  error : String
  errorDescription : String
deriving DecidableEq

/-- Contents of the cache file when it exists: either bytes that deserialize
to a `TokenCache`, or malformed bytes. -/
inductive FileContent where
  | valid (c : TokenCache)
  | corrupt
deriving DecidableEq

/-- The cache file location: absent, or present with some content. -/
abbrev CacheFS := Option FileContent

/-- How `loadCachedToken` can fail: `os.ReadFile` error (file absent) or
`json.Unmarshal` error (malformed content). -/
inductive LoadError where
  | readError
  | unmarshalError
deriving DecidableEq

/-- Embedding of `loadCachedToken`: read the cache file, unmarshal it;
each failure mode is reported as a distinct error. -/
def loadCachedToken : CacheFS → Except LoadError TokenCache
  | none => .error .readError
  | some .corrupt => .error .unmarshalError
  | some (.valid c) => .ok c

/-- The record `saveTokenCache` builds from a token response at time `now`:
`ExpiresAt = time.Now().Add(ExpiresIn seconds)`. -/
def mkCache (now : Int) (tr : TokenResponse) : TokenCache :=
  { accessToken := tr.accessToken
    refreshToken := tr.refreshToken
    expiresAt := now + tr.expiresIn }

/-- Embedding of `saveTokenCache`: marshal the record and write the file,
replacing any prior content wholesale.  `ioOk` says whether the disk write
(MkdirAll / WriteFile) succeeds; on failure the file is left as it was and
`false` is returned (the Go function returns the error). -/
def saveTokenCache (ioOk : Bool) (now : Int) (tr : TokenResponse) (fs : CacheFS) :
    CacheFS × Bool :=
  if ioOk then (some (.valid (mkCache now tr)), true) else (fs, false)

/-- Result of `os.Remove` on the cache file: the file was removed, or it did
not exist (`os.IsNotExist`). -/
inductive RemoveResult where
  | removed
  | notExist
deriving DecidableEq

/-- Embedding of `os.Remove` on the cache path. -/
def osRemove : CacheFS → CacheFS × RemoveResult
  | none => (none, .notExist)
  | some _ => (none, .removed)

/-- Embedding of `ClearCache`: remove the file; an `IsNotExist` error is
mapped to success. -/
def ClearCache (fs : CacheFS) : CacheFS × Except Unit Unit :=
  match osRemove fs with
  | (fs', .notExist) => (fs', .ok ())
  | (fs', .removed) => (fs', .ok ())

/-- Embedding of `HasCachedToken`: `os.Stat` succeeds iff the file exists. -/
def HasCachedToken (fs : CacheFS) : Bool := fs.isSome

/-- The response the token endpoint hands a refresh request. -/
inductive RefreshResponse where
  | transport
  | httpError
  | ok (body : Option TokenResponse)
deriving DecidableEq

/-- How `refreshToken` can fail, one constructor per return site. -/
inductive RefreshError where
  | transport
  | refreshFailed
  | decodeFailed
deriving DecidableEq

/-- What a `refreshToken` call produces: the Go return value, the cache file
afterwards, and whether the warning about a failed cache write was printed. -/
structure RefreshOut where
  result : Except RefreshError String
  fs : CacheFS
  warned : Bool

/-- Embedding of `refreshToken`: one POST to the token endpoint; non-200 is
`failed to refresh token`; an undecodable 200 body is an error; on success the
new token is cached (a failed write only prints a warning) and the fresh
access token is returned. -/
def refreshToken (resp : RefreshResponse) (saveOk : Bool) (now : Int)
    (fs : CacheFS) : RefreshOut :=
  match resp with
  | .transport => ⟨.error .transport, fs, false⟩
  | .httpError => ⟨.error .refreshFailed, fs, false⟩
  | .ok none => ⟨.error .decodeFailed, fs, false⟩
  | .ok (some tr) =>
    let s := saveTokenCache saveOk now tr fs
    ⟨.ok tr.accessToken, s.1, !s.2⟩

/-- The response the token endpoint hands one poll request.
`transport` covers a `PostForm` error or a body-read error (both `continue`);
`httpError body` is a non-200 status whose body unmarshals to `some`
TokenError or is malformed (`none`); `ok body` is a 200 status whose body
unmarshals to `some` TokenResponse or is malformed (`none`). -/
inductive PollResponse where
  | transport
  | httpError (body : Option TokenError)
  | ok (body : Option TokenResponse)
deriving DecidableEq

/-- Mutable state of the poll loop: current time, current sleep interval in
seconds, number of poll requests issued so far. -/
structure PollState where
  t : Int
  interval : Int
  reqs : Nat
deriving DecidableEq

/-- A terminal classification of a poll response, one per `return` site of
the loop body. -/
inductive PollTerminal where
  | success (tr : TokenResponse)
  | expiredToken
  | declined
  | otherError (e : TokenError)
  | parseFailed
deriving DecidableEq

/-- What one iteration of the poll loop does: hit the deadline, return with a
terminal classification (carrying the request count and the clock), or loop
with an updated state. -/
inductive StepOut where
  | timedOut (reqs : Nat)
  | done (r : PollTerminal) (reqs : Nat) (t : Int)
  | again (s : PollState)
deriving DecidableEq

/-- One iteration of the `for time.Now().Before(expiration)` loop of
`pollForToken`: check the deadline, sleep for the current interval, issue poll
request number `s.reqs`, and classify the response exactly as the Go switch
does (malformed non-200 bodies `continue`; `slow_down` grows the interval by
5 seconds; a malformed 200 body is a terminal parse failure). -/
def pollStep (server : Nat → PollResponse) (deadline : Int) (s : PollState) :
    StepOut :=
  if s.t < deadline then
    let t' := s.t + s.interval
    match server s.reqs with
    | .transport => .again ⟨t', s.interval, s.reqs + 1⟩
    | .httpError none => .again ⟨t', s.interval, s.reqs + 1⟩
    | .httpError (some te) =>
      if te.error = "authorization_pending" then .again ⟨t', s.interval, s.reqs + 1⟩
      else if te.error = "slow_down" then .again ⟨t', s.interval + 5, s.reqs + 1⟩
      else if te.error = "expired_token" then .done .expiredToken (s.reqs + 1) t'
      else if te.error = "authorization_declined" then .done .declined (s.reqs + 1) t'
      else .done (.otherError te) (s.reqs + 1) t'
    | .ok none => .done .parseFailed (s.reqs + 1) t'
    | .ok (some tr) => .done (.success tr) (s.reqs + 1) t'
  else .timedOut s.reqs

/-- How the whole loop ends: a terminal classification inside the body, or
the deadline check failing (`authentication timed out`). -/
inductive LoopOut where
  | term (r : PollTerminal) (reqs : Nat) (t : Int)
  | timeout (reqs : Nat)
deriving DecidableEq

/-- Fuel-indexed iteration of `pollStep`; `none` means the fuel ran out. -/
def pollLoopAux (server : Nat → PollResponse) (deadline : Int) :
    Nat → PollState → Option LoopOut
  | 0, _ => none
  | fuel + 1, s =>
    match pollStep server deadline s with
    | .timedOut n => some (.timeout n)
    | .done r n t => some (.term r n t)
    | .again s' => pollLoopAux server deadline fuel s'

/-- The state of the loop after `n` completed (non-terminal) iterations,
starting from `s`; `none` if the loop left its body within those `n`
iterations. -/
def runSteps (server : Nat → PollResponse) (deadline : Int) (s : PollState) :
    Nat → Option PollState
  | 0 => some s
  | n + 1 =>
    match runSteps server deadline s n with
    | some s' =>
      match pollStep server deadline s' with
      | .again s'' => some s''
      | _ => none
    | none => none

/-- The error `pollForToken` surfaces, one per `return` site. -/
inductive PollError where
  | expiredToken
  | declined
  | otherError (e : TokenError)
  | parseFailed
  | timedOut
deriving DecidableEq

/-- What a `pollForToken` call produces: the Go return value, the number of
poll requests issued, the cache file afterwards, and whether the failed-write
warning was printed. -/
structure PollOut where
  result : Except PollError String
  reqs : Nat
  fs : CacheFS
  warned : Bool

/-- The poll interval after the default: 5 seconds when the server sent 0. -/
def effInterval (d : DeviceCodeResponse) : Int :=
  if d.interval = 0 then 5 else d.interval

/-- Embedding of `pollForToken`, entered at time `t0`: set the interval (with
its zero default), fix the deadline `t0 + ExpiresIn`, run the loop; on a
successful exchange cache the token (a failed write only prints a warning)
and return the access token. -/
def pollForToken (server : Nat → PollResponse) (saveOk : Bool)
    (d : DeviceCodeResponse) (t0 : Int) (fs : CacheFS) (fuel : Nat) :
    Option PollOut :=
  match pollLoopAux server (t0 + d.expiresIn) fuel ⟨t0, effInterval d, 0⟩ with
  | none => none
  | some (.timeout n) => some ⟨.error .timedOut, n, fs, false⟩
  | some (.term r n t) =>
    match r with
    | .success tr =>
      let s := saveTokenCache saveOk t tr fs
      some ⟨.ok tr.accessToken, n, s.1, !s.2⟩
    | .expiredToken => some ⟨.error .expiredToken, n, fs, false⟩
    | .declined => some ⟨.error .declined, n, fs, false⟩
    | .otherError e => some ⟨.error (.otherError e), n, fs, false⟩
    | .parseFailed => some ⟨.error .parseFailed, n, fs, false⟩

/-- How `GetToken` can fail, following the wrapping in
`authenticateWithDeviceFlow`. -/
inductive AuthError where
  | deviceCodeRequestFailed
  | authFailed (e : PollError)
deriving DecidableEq

/-- Network requests issued during one `GetToken` call, by endpoint/kind. -/
structure Calls where
  refreshCalls : Nat
  deviceCodeCalls : Nat
  pollCalls : Nat
deriving DecidableEq

/-- What a `GetToken` call produces: the Go return value, the network
requests issued, and the cache file afterwards. -/
structure GetTokenOut where
  result : Except AuthError String
  calls : Calls
  fs : CacheFS

/-- The environment of one `GetToken` call: the clock, the cache file, the
token endpoint's response to a refresh request, the device-code endpoint's
response (`none` = the request fails), the poll server, and whether cache
writes succeed. -/
structure Env where
  now : Int
  fs : CacheFS
  refreshResp : RefreshResponse
  deviceCodeResp : Option DeviceCodeResponse
  pollServer : Nat → PollResponse
  saveOk : Bool

/-- Embedding of `authenticateWithDeviceFlow`: one device-code request, then
poll to completion (the printed banner and the browser open do not affect the
returned value). -/
def authenticateWithDeviceFlow (env : Env) (fs : CacheFS) (fuel : Nat) :
    Option GetTokenOut :=
  match env.deviceCodeResp with
  | none => some ⟨.error .deviceCodeRequestFailed, ⟨0, 1, 0⟩, fs⟩
  | some d =>
    match pollForToken env.pollServer env.saveOk d env.now fs fuel with
    | none => none
    | some p =>
      match p.result with
      | .ok tok => some ⟨.ok tok, ⟨0, 1, p.reqs⟩, p.fs⟩
      | .error e => some ⟨.error (.authFailed e), ⟨0, 1, p.reqs⟩, p.fs⟩

/-- Count one more refresh request in an outcome. -/
def addRefreshCall (o : GetTokenOut) : GetTokenOut :=
  { o with calls := { o.calls with refreshCalls := o.calls.refreshCalls + 1 } }

/-- Embedding of `GetToken`: load the cache; if the token is valid with a
5-minute buffer return it with no network call; else if a refresh token is
present try one refresh and return its token on success; otherwise fall back
to the device flow. -/
def GetToken (env : Env) (fuel : Nat) : Option GetTokenOut :=
  match loadCachedToken env.fs with
  | .ok token =>
    if env.now + 300 < token.expiresAt then
      some ⟨.ok token.accessToken, ⟨0, 0, 0⟩, env.fs⟩
    else if token.refreshToken ≠ "" then
      let r := refreshToken env.refreshResp env.saveOk env.now env.fs
      match r.result with
      | .ok newTok => some ⟨.ok newTok, ⟨1, 0, 0⟩, r.fs⟩
      | .error _ => (authenticateWithDeviceFlow env env.fs fuel).map addRefreshCall
    else
      authenticateWithDeviceFlow env env.fs fuel
  | .error _ => authenticateWithDeviceFlow env env.fs fuel

/-- A poll response that keeps the loop in its Pending state: a transport
failure, a malformed non-200 body, `authorization_pending`, or `slow_down`. -/
def transientResponse : PollResponse → Bool
  | .transport => true
  | .httpError none => true
  | .httpError (some te) =>
    te.error = "authorization_pending" || te.error = "slow_down"
  | .ok _ => false

/-- Whether a poll response is the `slow_down` signal. -/
def isSlowDown : PollResponse → Bool
  | .httpError (some te) => te.error = "slow_down"
  | _ => false

/-- Number of `slow_down` responses among the first `n` poll responses. -/
def slowCount (server : Nat → PollResponse) (n : Nat) : Nat :=
  (List.range n).countP (fun i => isSlowDown (server i))

/-- The part of a `GetToken` outcome its caller observes: the returned value
and the network requests issued. -/
def observableOf (o : GetTokenOut) : Except AuthError String × Calls :=
  (o.result, o.calls)

/-- A cached credential whose expiry lies far past the 5-minute buffer. -/
def cacheValidC1 : TokenCache := ⟨"tokA", "refR", 1000⟩

/-- A concrete environment holding `cacheValidC1` at time 0. -/
def envC1 : Env :=
  ⟨0, some (.valid cacheValidC1), .transport, none, fun _ => .transport, true⟩

/-- A cached credential already inside the 5-minute buffer at time 0, with a
non-empty refresh token. -/
def cacheExpiredC2 : TokenCache := ⟨"oldA", "oldR", 100⟩

/-- The token response a successful refresh hands back. -/
def trC2 : TokenResponse := ⟨"newTok", "Bearer", 3600, "newR", "scope"⟩

/-- A concrete environment whose cache is stale and whose refresh succeeds. -/
def envC2 : Env :=
  ⟨0, some (.valid cacheExpiredC2), .ok (some trC2), none, fun _ => .transport, true⟩

/-- A device authorization with a 1-second lifetime and a 5-second interval. -/
def dW3 : DeviceCodeResponse := ⟨"dev3", "usr3", "uri3", 1, 5, "m3"⟩

/-- A poll server whose every exchange fails at the transport level. -/
def serverTransportW : Nat → PollResponse := fun _ => .transport

/-- A device authorization with a comfortable lifetime, for poll runs. -/
def dC4 : DeviceCodeResponse := ⟨"dev4", "usr4", "uri4", 100, 5, "m4"⟩

/-- The token response the C4 run ends with. -/
def trC4 : TokenResponse := ⟨"T1", "Bearer", 3600, "R1", "scope"⟩

/-- A poll server whose first response is a non-200 with a malformed body and
whose second response is a successful token exchange. -/
def serverC4 : Nat → PollResponse :=
  fun n => if n = 0 then .httpError none else .ok (some trC4)

/-- A poll server that always answers non-200 with a malformed body. -/
def serverMalformedW : Nat → PollResponse := fun _ => .httpError none

/-- A poll server that always answers `slow_down`. -/
def serverSlowW : Nat → PollResponse :=
  fun _ => .httpError (some ⟨"slow_down", "too fast"⟩)

/-- A device authorization whose server omitted the interval (0, defaulted). -/
def dSlowW : DeviceCodeResponse := ⟨"dev5", "usr5", "uri5", 100, 0, "m5"⟩

/-- A poll server that always answers `authorization_pending`. -/
def serverPendingW : Nat → PollResponse :=
  fun _ => .httpError (some ⟨"authorization_pending", "waiting"⟩)

/-- A device authorization with a 1-second lifetime, shorter than the
5-second interval. -/
def dC10small : DeviceCodeResponse := ⟨"devA", "usrA", "uriA", 1, 5, "mA"⟩

/-- A device authorization whose lifetime is already zero. -/
def dC10zero : DeviceCodeResponse := ⟨"devB", "usrB", "uriB", 0, 5, "mB"⟩

/-- Every outcome of the device-flow fallback counts zero refresh requests:
the refresh endpoint is only contacted from the refresh branch of `GetToken`. -/
theorem authFlow_refreshCalls (env : Env) (fs : CacheFS) (fuel : Nat)
    (o : GetTokenOut) (h : authenticateWithDeviceFlow env fs fuel = some o) :
    o.calls.refreshCalls = 0 := by
  cases hd : env.deviceCodeResp with
  | none =>
    simp only [authenticateWithDeviceFlow, hd, Option.some.injEq] at h
    subst h; rfl
  | some d =>
    simp only [authenticateWithDeviceFlow, hd] at h
    cases hp : pollForToken env.pollServer env.saveOk d env.now fs fuel with
    | none => simp only [hp] at h; exact Option.noConfusion h
    | some p =>
      simp only [hp] at h
      cases hres : p.result with
      | ok tok =>
        simp only [hres, Option.some.injEq] at h
        subst h; rfl
      | error e =>
        simp only [hres, Option.some.injEq] at h
        subst h; rfl

/-- The device-flow fallback does not read the `fs` field of its environment;
only the explicit file-state argument matters. -/
theorem authFlow_env_fs_irrel (env : Env) (x : CacheFS) (fs : CacheFS)
    (fuel : Nat) :
    authenticateWithDeviceFlow { env with fs := x } fs fuel =
    authenticateWithDeviceFlow env fs fuel := rfl

/-- The returned value and the request count of `pollForToken` do not depend
on the prior cache file state. -/
theorem pollForToken_fs_congr (server : Nat → PollResponse) (saveOk : Bool)
    (d : DeviceCodeResponse) (t0 : Int) (fs fs' : CacheFS) (fuel : Nat) :
    (pollForToken server saveOk d t0 fs fuel).map (fun p => (p.result, p.reqs)) =
    (pollForToken server saveOk d t0 fs' fuel).map (fun p => (p.result, p.reqs)) := by
  unfold pollForToken
  cases pollLoopAux server (t0 + d.expiresIn) fuel ⟨t0, effInterval d, 0⟩ with
  | none => rfl
  | some lo =>
    cases lo with
    | timeout n => rfl
    | term r n t => cases r <;> rfl

/-- The observable outcome of the device-flow fallback does not depend on the
prior cache file state. -/
theorem authFlow_fs_congr (env : Env) (fs fs' : CacheFS) (fuel : Nat) :
    (authenticateWithDeviceFlow env fs fuel).map observableOf =
    (authenticateWithDeviceFlow env fs' fuel).map observableOf := by
  cases hd : env.deviceCodeResp with
  | none => simp only [authenticateWithDeviceFlow, hd]; simp [observableOf]
  | some d =>
    simp only [authenticateWithDeviceFlow, hd]
    have h := pollForToken_fs_congr env.pollServer env.saveOk d env.now fs fs' fuel
    cases h1 : pollForToken env.pollServer env.saveOk d env.now fs fuel with
    | none =>
      cases h2 : pollForToken env.pollServer env.saveOk d env.now fs' fuel with
      | none => rfl
      | some p => rw [h1, h2] at h; simp at h
    | some p =>
      cases h2 : pollForToken env.pollServer env.saveOk d env.now fs' fuel with
      | none => rw [h1, h2] at h; simp at h
      | some p' =>
        rw [h1, h2] at h
        simp only [Option.map_some', Option.some.injEq, Prod.mk.injEq] at h
        obtain ⟨hres, hreqs⟩ := h
        simp only [hres, hreqs]
        cases p'.result <;> simp [observableOf]

/-- C1: a cached credential whose `expiresAt` lies more than 5 minutes past
the current time makes `GetToken` return the cached access token with zero
network calls of any kind. -/
theorem getToken_cached_valid (env : Env) (c : TokenCache)
    (hload : loadCachedToken env.fs = .ok c)
    (hvalid : env.now + 300 < c.expiresAt) (fuel : Nat) :
    GetToken env fuel = some ⟨.ok c.accessToken, ⟨0, 0, 0⟩, env.fs⟩ := by
  simp [GetToken, hload, hvalid]

/-- C1 witness: the theorem applied to `envC1` at time 0. -/
theorem getToken_cached_valid_witness :
    GetToken envC1 5 = some ⟨.ok "tokA", ⟨0, 0, 0⟩, envC1.fs⟩ :=
  getToken_cached_valid envC1 cacheValidC1 rfl (by decide) 5

/-- C2: on a cached credential inside the 5-minute buffer that carries a
non-empty refresh token, `GetToken` issues exactly one refresh request in
every outcome, and when the refresh succeeds it returns the fresh access
token with no device-code request and no polling. -/
theorem getToken_refresh_once (env : Env) (c : TokenCache)
    (hload : loadCachedToken env.fs = .ok c)
    (hexp : c.expiresAt ≤ env.now + 300)
    (hrt : c.refreshToken ≠ "") (fuel : Nat) :
    (∀ o, GetToken env fuel = some o → o.calls.refreshCalls = 1) ∧
    (∀ tr, env.refreshResp = .ok (some tr) →
      GetToken env fuel =
        some ⟨.ok tr.accessToken, ⟨1, 0, 0⟩,
          (saveTokenCache env.saveOk env.now tr env.fs).1⟩) := by
  have hnotlt : ¬ env.now + 300 < c.expiresAt := not_lt.2 hexp
  constructor
  · intro o ho
    simp only [GetToken, hload, if_neg hnotlt, if_pos hrt] at ho
    cases hr : (refreshToken env.refreshResp env.saveOk env.now env.fs).result with
    | ok newTok =>
      simp only [hr, Option.some.injEq] at ho
      subst ho; rfl
    | error e =>
      simp only [hr] at ho
      cases ha : authenticateWithDeviceFlow env env.fs fuel with
      | none => rw [ha] at ho; exact Option.noConfusion ho
      | some o' =>
        rw [ha] at ho
        simp only [Option.map_some', Option.some.injEq] at ho
        have h0 := authFlow_refreshCalls env env.fs fuel o' ha
        rw [← ho]
        simp [addRefreshCall, h0]
  · intro tr htr
    simp only [GetToken, hload, if_neg hnotlt, if_pos hrt, htr, refreshToken]

/-- C2 witness: the theorem applied to `envC2`, whose cache expired at 100
with the clock at 0 and whose refresh succeeds with `trC2`. -/
theorem getToken_refresh_once_witness :
    GetToken envC2 5 =
      some ⟨.ok "newTok", ⟨1, 0, 0⟩, some (.valid ⟨"newTok", "newR", 3600⟩)⟩ :=
  (getToken_refresh_once envC2 cacheExpiredC2 rfl (by decide) (by decide) 5).2
    trC2 rfl

/-- C6: a corrupt cache file is loaded as a distinct error, never as an empty
credential, and `GetToken` then behaves observably (returned value and
network requests) exactly as with no cache file at all. -/
theorem getToken_corrupt_eq_absent (env : Env) (fuel : Nat) :
    loadCachedToken (some .corrupt) = .error .unmarshalError ∧
    (GetToken { env with fs := some .corrupt } fuel).map observableOf =
    (GetToken { env with fs := none } fuel).map observableOf := by
  refine ⟨rfl, ?_⟩
  have h1 : GetToken { env with fs := some .corrupt } fuel =
      authenticateWithDeviceFlow env (some .corrupt) fuel :=
    authFlow_env_fs_irrel env (some .corrupt) (some .corrupt) fuel
  have h2 : GetToken { env with fs := none } fuel =
      authenticateWithDeviceFlow env none fuel :=
    authFlow_env_fs_irrel env none none fuel
  rw [h1, h2]
  exact authFlow_fs_congr env (some .corrupt) none fuel

/-- C7: when the token endpoint answers a refresh with a decodable success
body but the cache write fails, `refreshToken` still returns the fresh access
token with no error, leaves the file as it was, and prints the warning. -/
theorem refreshToken_save_failure_warns (now : Int) (fs : CacheFS)
    (tr : TokenResponse) :
    refreshToken (.ok (some tr)) false now fs = ⟨.ok tr.accessToken, fs, true⟩ :=
  rfl

/-- C8: `ClearCache` succeeds on an absent record, succeeds on every prior
state, and `HasCachedToken` is false immediately afterwards. -/
theorem clearCache_idempotent (fs : CacheFS) :
    (ClearCache none).2 = .ok () ∧
    (ClearCache fs).2 = .ok () ∧
    HasCachedToken (ClearCache fs).1 = false := by
  cases fs with
  | none => exact ⟨rfl, rfl, rfl⟩
  | some c => exact ⟨rfl, rfl, rfl⟩

/-- C9: saving a token response and immediately loading yields exactly the
record built from it (tokens verbatim, expiry = save time + lifetime), and
the write replaces any prior content wholesale: its outcome is independent of
the previous file state. -/
theorem saveTokenCache_roundtrip (now : Int) (tr : TokenResponse)
    (fs fs' : CacheFS) :
    loadCachedToken (saveTokenCache true now tr fs).1 =
      .ok ⟨tr.accessToken, tr.refreshToken, now + tr.expiresIn⟩ ∧
    saveTokenCache true now tr fs = saveTokenCache true now tr fs' :=
  ⟨rfl, rfl⟩

/-- Counting `slow_down` answers among one more response. -/
theorem slowCount_succ (server : Nat → PollResponse) (n : Nat) :
    slowCount server (n + 1) =
      slowCount server n + (if isSlowDown (server n) then 1 else 0) := by
  unfold slowCount
  rw [List.range_succ, List.countP_append]
  simp [List.countP_cons]

/-- When every response the server hands back is transient, a poll loop whose
interval is at least one second and whose fuel exceeds the seconds left until
the deadline ends with the timeout result. -/
theorem pollLoopAux_transient_timeout (server : Nat → PollResponse)
    (hsrv : ∀ n, transientResponse (server n) = true) (deadline : Int) :
    ∀ (fuel : Nat) (s : PollState), 1 ≤ s.interval →
      (deadline - s.t).toNat < fuel →
      ∃ n, pollLoopAux server deadline fuel s = some (.timeout n) := by
  intro fuel
  induction fuel with
  | zero => intro s _ h; omega
  | succ fuel ih =>
    intro s hint hfuel
    by_cases hlt : s.t < deadline
    · have htr := hsrv s.reqs
      have hnext : ∀ s' : PollState,
          pollStep server deadline s = .again s' →
          s.interval ≤ s'.interval → s'.t = s.t + s.interval →
          ∃ n, pollLoopAux server deadline (fuel + 1) s = some (.timeout n) := by
        intro s' hstep hmono hts
        have h1 : 1 ≤ s'.interval := le_trans hint hmono
        have h2 : (deadline - s'.t).toNat < fuel := by
          rw [hts]; omega
        obtain ⟨n, hn⟩ := ih s' h1 h2
        refine ⟨n, ?_⟩
        simp only [pollLoopAux, hstep]
        exact hn
      cases hresp : server s.reqs with
      | transport =>
        exact hnext ⟨s.t + s.interval, s.interval, s.reqs + 1⟩
          (by simp [pollStep, hlt, hresp]) le_rfl rfl
      | httpError body =>
        cases body with
        | none =>
          exact hnext ⟨s.t + s.interval, s.interval, s.reqs + 1⟩
            (by simp [pollStep, hlt, hresp]) le_rfl rfl
        | some te =>
          rw [hresp] at htr
          simp only [transientResponse, Bool.or_eq_true, decide_eq_true_eq] at htr
          cases htr with
          | inl hpend =>
            exact hnext ⟨s.t + s.interval, s.interval, s.reqs + 1⟩
              (by simp [pollStep, hlt, hresp, hpend]) le_rfl rfl
          | inr hslow =>
            exact hnext ⟨s.t + s.interval, s.interval + 5, s.reqs + 1⟩
              (by simp [pollStep, hlt, hresp, hslow])
              (by show s.interval ≤ s.interval + 5; omega) rfl
      | ok body =>
        rw [hresp] at htr
        simp [transientResponse] at htr
    · refine ⟨s.reqs, ?_⟩
      simp [pollLoopAux, pollStep, hlt]

/-- C3: against a server that never answers with a success, a decline or a
terminal error, `pollForToken` terminates once its fuel covers the deadline
and yields the authentication-timed-out error with the file untouched. -/
theorem pollForToken_transient_times_out (server : Nat → PollResponse)
    (saveOk : Bool) (d : DeviceCodeResponse) (t0 : Int) (fs : CacheFS)
    (fuel : Nat) (hsrv : ∀ n, transientResponse (server n) = true)
    (hint : 0 ≤ d.interval) (hfuel : d.expiresIn.toNat < fuel) :
    ∃ n, pollForToken server saveOk d t0 fs fuel =
      some ⟨.error .timedOut, n, fs, false⟩ := by
  have h1 : 1 ≤ effInterval d := by
    unfold effInterval; split <;> omega
  have h2 : (t0 + d.expiresIn - t0).toNat < fuel := by omega
  obtain ⟨n, hn⟩ := pollLoopAux_transient_timeout server hsrv (t0 + d.expiresIn)
    fuel ⟨t0, effInterval d, 0⟩ h1 h2
  refine ⟨n, ?_⟩
  simp only [pollForToken, hn]

/-- C3 witness: the 1-second authorization `dW3` against the all-transport
server, with fuel 3. -/
theorem pollForToken_transient_times_out_witness :
    ∃ n, pollForToken serverTransportW true dW3 0 none 3 =
      some ⟨.error .timedOut, n, none, false⟩ :=
  pollForToken_transient_times_out serverTransportW true dW3 0 none 3
    (fun _ => rfl) (by decide) (by decide)

/-- C5: the interval the poll loop holds after `n` completed iterations is
the initial interval plus 5 seconds for each `slow_down` answer received, so
each sleep after a `slow_down` is strictly longer than the one before it. -/
theorem pollLoop_slowdown_interval (server : Nat → PollResponse)
    (d : DeviceCodeResponse) (t0 : Int) :
    ∀ (n : Nat) (s : PollState),
      runSteps server (t0 + d.expiresIn) ⟨t0, effInterval d, 0⟩ n = some s →
      s.interval = effInterval d + 5 * slowCount server n ∧ s.reqs = n := by
  intro n
  induction n with
  | zero =>
    intro s hs
    simp only [runSteps, Option.some.injEq] at hs
    subst hs
    simp [slowCount]
  | succ n ih =>
    intro s hs
    simp only [runSteps] at hs
    cases hp : runSteps server (t0 + d.expiresIn) ⟨t0, effInterval d, 0⟩ n with
    | none => simp only [hp] at hs; exact Option.noConfusion hs
    | some s' =>
      simp only [hp] at hs
      obtain ⟨hint, hreqs⟩ := ih s' hp
      cases hstep : pollStep server (t0 + d.expiresIn) s' with
      | timedOut m => simp only [hstep] at hs; exact Option.noConfusion hs
      | done r m t => simp only [hstep] at hs; exact Option.noConfusion hs
      | again s'' =>
        simp only [hstep, Option.some.injEq] at hs
        subst hs
        unfold pollStep at hstep
        by_cases hlt : s'.t < t0 + d.expiresIn
        · rw [if_pos hlt] at hstep
          rw [slowCount_succ]
          cases hresp : server s'.reqs with
          | transport =>
            simp only [hresp, StepOut.again.injEq] at hstep
            subst hstep
            rw [hreqs] at hresp
            simp [isSlowDown, hresp, hint, hreqs]
          | httpError body =>
            cases body with
            | none =>
              simp only [hresp, StepOut.again.injEq] at hstep
              subst hstep
              rw [hreqs] at hresp
              simp [isSlowDown, hresp, hint, hreqs]
            | some te =>
              simp only [hresp] at hstep
              by_cases hpend : te.error = "authorization_pending"
              · rw [if_pos hpend] at hstep
                simp only [StepOut.again.injEq] at hstep
                subst hstep
                rw [hreqs] at hresp
                have hns : isSlowDown (PollResponse.httpError (some te)) = false := by
                  simp [isSlowDown, hpend]
                simp [hresp, hns, hint, hreqs]
              · rw [if_neg hpend] at hstep
                by_cases hslow : te.error = "slow_down"
                · rw [if_pos hslow] at hstep
                  simp only [StepOut.again.injEq] at hstep
                  subst hstep
                  rw [hreqs] at hresp
                  have hys : isSlowDown (PollResponse.httpError (some te)) = true := by
                    simp [isSlowDown, hslow]
                  refine ⟨?_, by simp [hreqs]⟩
                  simp only [hresp, hys, if_true]
                  rw [hint]
                  push_cast
                  ring
                · rw [if_neg hslow] at hstep
                  split at hstep
                  · exact StepOut.noConfusion hstep
                  · split at hstep
                    · exact StepOut.noConfusion hstep
                    · exact StepOut.noConfusion hstep
          | ok body =>
            cases body with
            | none =>
              simp only [hresp] at hstep
              exact StepOut.noConfusion hstep
            | some tr =>
              simp only [hresp] at hstep
              exact StepOut.noConfusion hstep
        · rw [if_neg hlt] at hstep
          exact StepOut.noConfusion hstep

/-- C5 witness: two `slow_down` answers against the defaulted 5-second
interval of `dSlowW` leave the loop holding a 15-second interval. -/
theorem pollLoop_slowdown_interval_witness :
    (⟨15, 15, 2⟩ : PollState).interval = effInterval dSlowW + 5 * slowCount serverSlowW 2 ∧
    (⟨15, 15, 2⟩ : PollState).reqs = 2 :=
  pollLoop_slowdown_interval serverSlowW dSlowW 0 2 ⟨15, 15, 2⟩ (by decide)

/-- C4 counterexample: against `serverC4`, whose first answer is a non-200
with a malformed body, the first loop iteration continues polling rather than
stopping with a terminal error, and the whole poll run goes on to succeed on
the second request — the poller did not transition to Failed. -/
theorem pollStep_malformed_not_failed_cex :
    pollStep serverC4 100 ⟨0, 5, 0⟩ = .again ⟨5, 5, 1⟩ ∧
    pollForToken serverC4 true dC4 0 none 10 =
      some ⟨.ok "T1", 2, some (.valid ⟨"T1", "R1", 3610⟩), false⟩ :=
  ⟨rfl, rfl⟩

/-- C4 amended: during polling, a non-success HTTP response whose body is
malformed is treated as transient — the poller stays Pending, keeps its
interval, and retries on the next iteration (only a malformed body on an HTTP
200 stops polling with a terminal parse error). -/
theorem pollStep_malformed_nonsuccess_transient (server : Nat → PollResponse)
    (deadline : Int) (s : PollState) (hlt : s.t < deadline)
    (hresp : server s.reqs = .httpError none) :
    pollStep server deadline s =
      .again ⟨s.t + s.interval, s.interval, s.reqs + 1⟩ := by
  simp [pollStep, hlt, hresp]

/-- C4 amended witness: the amended theorem applied to the all-malformed
server at the first iteration. -/
theorem pollStep_malformed_nonsuccess_transient_witness :
    pollStep serverMalformedW 10 ⟨0, 5, 0⟩ = .again ⟨5, 5, 1⟩ :=
  pollStep_malformed_nonsuccess_transient serverMalformedW 10 ⟨0, 5, 0⟩
    (by decide) rfl

/-- C10: a device-code response with a non-positive `ExpiresIn` makes the
poller return the timeout error with zero poll requests (the loop body, its
sleep included, never runs); and with `ExpiresIn = 1 < Interval = 5` exactly
one poll request is issued, after the first full-interval sleep has already
carried the clock past the deadline (request time 5, deadline 1). -/
theorem pollForToken_expiry_edge_cases :
    (∀ (server : Nat → PollResponse) (saveOk : Bool) (d : DeviceCodeResponse)
        (t0 : Int) (fs : CacheFS) (fuel : Nat),
        d.expiresIn ≤ 0 → 1 ≤ fuel →
        pollForToken server saveOk d t0 fs fuel =
          some ⟨.error .timedOut, 0, fs, false⟩) ∧
    (runSteps serverPendingW (0 + dC10small.expiresIn) ⟨0, effInterval dC10small, 0⟩ 1 =
        some ⟨5, 5, 1⟩ ∧
      (0 + dC10small.expiresIn : Int) < 5 ∧
      pollForToken serverPendingW true dC10small 0 none 10 =
        some ⟨.error .timedOut, 1, none, false⟩) := by
  constructor
  · intro server saveOk d t0 fs fuel he hf
    obtain ⟨m, rfl⟩ : ∃ m, fuel = m + 1 := ⟨fuel - 1, by omega⟩
    have hnl : ¬ (t0 < t0 + d.expiresIn) := by omega
    simp [pollForToken, pollLoopAux, pollStep, hnl]
  · exact ⟨rfl, by decide, rfl⟩

/-- C10 witness: the first conjunct applied to the zero-lifetime
authorization `dC10zero` with the all-transport server and fuel 1. -/
theorem pollForToken_expiry_edge_cases_witness :
    pollForToken serverTransportW true dC10zero 7 none 1 =
      some ⟨.error .timedOut, 0, none, false⟩ :=
  pollForToken_expiry_edge_cases.1 serverTransportW true dC10zero 7 none 1
    (by decide) (by decide)

end DevOpsTui
